import Mathlib

/-!
Verification of the conman configuration-parsing core.

Shallow embedding of the directive-oriented configuration pipeline of the
`conmand` crate:

* the character-class helpers and the state table
  (`src/conmand/src/parser/parser_state.rs`),
* the stack-driven block tokenizer
  (`src/conmand/src/parser/config_parser.rs`),
* the quote-aware line splitter and the regex-based directive classifier
  (`src/conmand/src/jls/command.rs`).

Rust `String`s are modelled as `List Char`; a Rust `Vec` used as a stack
(push/pop at the back) is modelled as a Lean list with the top at the head.
The character classes `char::is_alphanumeric` and `char::is_alphabetic` are
Unicode-aware in Rust; the model implements their ASCII fragment (every input
exercised by the claims is ASCII, and the proofs below only use the
classification of the ASCII delimiter characters).
-/

set_option maxRecDepth 4000
set_option linter.unreachableTactic false
set_option linter.unusedTactic false
set_option linter.unnecessarySeqFocus false

namespace Conman

/-- Rust `char::is_ascii_whitespace`: space, horizontal tab, line feed,
form feed, carriage return. -/
def is_ascii_whitespace (c : Char) : Bool :=
  c = ' ' || c = '\t' || c = '\n' || c = '\x0C' || c = '\r'

/-- Rust `char::is_ascii_alphanumeric`: `0-9`, `A-Z`, `a-z`. -/
def is_ascii_alphanumeric (c : Char) : Bool :=
  ('0' ≤ c && c ≤ '9') || ('A' ≤ c && c ≤ 'Z') || ('a' ≤ c && c ≤ 'z')

/-- Rust `char::is_alphanumeric` (ASCII fragment of the Unicode class). -/
def is_alphanumeric (c : Char) : Bool :=
  is_ascii_alphanumeric c

/-- Rust `char::is_alphabetic` (ASCII fragment of the Unicode class). -/
def is_alphabetic (c : Char) : Bool :=
  ('A' ≤ c && c ≤ 'Z') || ('a' ≤ c && c ≤ 'z')

/-- The opening brace character `{`. -/
def lbrace : Char := Char.ofNat 123

/-- The closing brace character `}`. -/
def rbrace : Char := Char.ofNat 125

/-- The `ParserState` enumeration from `parser_state.rs`: the tokenizer states. -/
inductive ParserState where
  | Starting
  | Name
  | StartBlock
  | EndBlock
  | Seeking
  | Comment
  | InDirective
  | Invalid
deriving DecidableEq, Repr

/-- Mirror of `ParserState::next_state`: the pure state table, mirroring the
if-chains of the source in order. -/
def next_state (s : ParserState) (token : Char) : ParserState :=
  match s with
  | .Starting =>
      if is_ascii_whitespace token then .Starting
      else if is_ascii_alphanumeric token then .Name
      else if token = lbrace then .StartBlock
      else if token = '#' then .Comment
      else .Invalid
  | .Name =>
      if is_alphanumeric token then .Name
      else if is_ascii_whitespace token then .Starting
      else if token = '#' then .Comment
      else if token = lbrace then .StartBlock
      else .Invalid
  | .StartBlock =>
      if is_ascii_whitespace token then .Seeking
      else if is_alphabetic token then .InDirective
      else if token = '#' then .Comment
      else if token = rbrace then .EndBlock
      else .Invalid
  | .EndBlock =>
      if is_ascii_whitespace token then .EndBlock
      else if token = '#' then .Comment
      else .Invalid
  | .Seeking =>
      if is_ascii_whitespace token then .Seeking
      else if token = '#' then .Comment
      else if is_ascii_alphanumeric token then .InDirective
      else if token = rbrace then .EndBlock
      else .Invalid
  | .Comment =>
      if token = '\n' then .Seeking
      else .Comment
  | .InDirective =>
      if token = ';' then .Seeking
      else if token = '#' then .Comment
      else .InDirective
  | .Invalid => .Invalid

/-- The parser's view of `ConfigItem` (`config_item.rs` / `config_parser.rs`):
a directive name and the raw directive text accumulated by the tokenizer.
`ConfigItem::new(name)` starts with an empty raw buffer. -/
structure ConfigItem where
  name : List Char
  raw : List Char
deriving DecidableEq, Repr

/-- The `Configuration` aggregate from `config.rs`: container name plus the ordered
directive list. `Configuration::default()` is empty. -/
structure Configuration where
  name : List Char
  directives : List ConfigItem
deriving DecidableEq, Repr

/-- Mirror of `ConfigParser::start_name_transition`: reset the name buffer, push
`Name`, seed the name with the token. -/
def start_name_transition (stack : List ParserState) (cfg : Configuration)
    (token : Char) : List ParserState × Configuration :=
  (ParserState.Name :: stack, { cfg with name := [token] })

/-- Mirror of `ConfigParser::end_name_transition`: pop the stack; if the popped state
is not `Name`, the source panics (modelled as `none`). -/
def end_name_transition (stack : List ParserState) (cfg : Configuration) :
    Option (List ParserState × Configuration) :=
  match stack with
  | ParserState.Name :: rest => some (rest, cfg)
  | _ => none

/-- Mirror of `ConfigParser::start_block_transition`: pop a `Name` on top, if any,
then push `StartBlock`. -/
def start_block_transition (stack : List ParserState) (cfg : Configuration) :
    List ParserState × Configuration :=
  let s := if stack.head? = some ParserState.Name then stack.tail else stack
  (ParserState.StartBlock :: s, cfg)

/-- Mirror of `ConfigParser::start_comment_transition`: pop a `Name` on top, if any,
then push `Comment`.  The configuration is untouched. -/
def start_comment_transition (stack : List ParserState) (cfg : Configuration) :
    List ParserState × Configuration :=
  let s := if stack.head? = some ParserState.Name then stack.tail else stack
  (ParserState.Comment :: s, cfg)

/-- Mirror of `ConfigParser::seeking_transition`: pop an `InDirective` on top,
otherwise push `Seeking`; on an empty stack do nothing. -/
def seeking_transition (stack : List ParserState) (cfg : Configuration) :
    List ParserState × Configuration :=
  match stack with
  | [] => ([], cfg)
  | ParserState.InDirective :: rest => (rest, cfg)
  | _ => (ParserState.Seeking :: stack, cfg)

/-- Mirror of `ConfigParser::in_directive_transition`: push a fresh `ConfigItem::new("")`
seeded with the token onto the directive list, then push `InDirective`. -/
def in_directive_transition (stack : List ParserState) (cfg : Configuration)
    (token : Char) : List ParserState × Configuration :=
  (ParserState.InDirective :: stack,
   { cfg with directives := cfg.directives ++ [{ name := [], raw := [token] }] })

/-- The pop loop of `ConfigParser::end_block_transition`: pop states down to
and including `StartBlock` (or until the stack is exhausted). -/
def drop_through_start_block : List ParserState → List ParserState
  | [] => []
  | ParserState.StartBlock :: rest => rest
  | _ :: rest => drop_through_start_block rest

/-- Mirror of `ConfigParser::end_block_transition`: pop through `StartBlock`,
then push `EndBlock`. -/
def end_block_transition (stack : List ParserState) (cfg : Configuration) :
    List ParserState × Configuration :=
  (ParserState.EndBlock :: drop_through_start_block stack, cfg)

/-- Mirror of `ConfigParser::end_comment_transition`: pop the top of the stack. -/
def end_comment_transition (stack : List ParserState) (cfg : Configuration) :
    List ParserState × Configuration :=
  (stack.tail, cfg)

/-- Mirror of `ConfigParser::handle_transition`: dispatch on the `(from, to)` pair
exactly as the nested matches of the source; unlisted pairs do nothing.
`none` models the panic inside `end_name_transition`. -/
def handle_transition (stack : List ParserState) (cfg : Configuration)
    (token : Char) :
    ParserState → ParserState → Option (List ParserState × Configuration)
  | .Starting, .Name => some (start_name_transition stack cfg token)
  | .Starting, .StartBlock => some (start_block_transition stack cfg)
  | .Starting, .Comment => some (start_comment_transition stack cfg)
  | .Name, .Starting => end_name_transition stack cfg
  | .Name, .StartBlock => some (start_block_transition stack cfg)
  | .Name, .Comment => some (start_comment_transition stack cfg)
  | .StartBlock, .Seeking => some (seeking_transition stack cfg)
  | .StartBlock, .InDirective => some (in_directive_transition stack cfg token)
  | .StartBlock, .Comment => some (start_comment_transition stack cfg)
  | .Seeking, .InDirective => some (in_directive_transition stack cfg token)
  | .Seeking, .Comment => some (start_comment_transition stack cfg)
  | .Seeking, .EndBlock => some (end_block_transition stack cfg)
  | .Comment, .Seeking => some (end_comment_transition stack cfg)
  | .InDirective, .Comment => some (start_comment_transition stack cfg)
  | .InDirective, .Seeking => some (seeking_transition stack cfg)
  | .InDirective, .EndBlock => some (end_block_transition stack cfg)
  | _, _ => some (stack, cfg)

/-- Append a character to the raw text of the last directive, as
`config.directives.last_mut()` does; an empty list is left unchanged. -/
def push_raw_last : List ConfigItem → Char → List ConfigItem
  | [], _ => []
  | [d], c => [{ d with raw := d.raw ++ [c] }]
  | d :: ds, c => d :: push_raw_last ds c

/-- The character loop of `ConfigParser::parse_content`.  The current state is
the top of the stack (`Invalid` on an empty stack); on `Invalid` the loop
breaks.  A state change dispatches `handle_transition`; otherwise the
character extends the current directive (in `InDirective`) or the name
(in `Name`).  `none` models the panic path. -/
def parse_loop : List ParserState → Configuration → List Char →
    Option (List ParserState × Configuration)
  | stack, cfg, [] => some (stack, cfg)
  | stack, cfg, val :: rest =>
      let current := stack.head?.getD ParserState.Invalid
      if current = ParserState.Invalid then
        some (stack, cfg)
      else
        let next := next_state current val
        if current ≠ next then
          match handle_transition stack cfg val current next with
          | none => none
          | some (s2, c2) => parse_loop s2 c2 rest
        else if next = ParserState.InDirective then
          parse_loop stack { cfg with directives := push_raw_last cfg.directives val } rest
        else if next = ParserState.Name then
          parse_loop stack { cfg with name := cfg.name ++ [val] } rest
        else
          parse_loop stack cfg rest

/-- Mirror of `ConfigParser::parse_content` on a fresh parser (`ConfigParser::new`
starts with the stack `[Starting]` and a default configuration).
`none` models the panic path; the `Ok` result is the configuration. -/
def parse_content (content : List Char) : Option Configuration :=
  (parse_loop [ParserState.Starting] ⟨[], []⟩ content).map Prod.snd

/-- The state stacks reachable by `parse_content` from `[Starting]`:
an explicit enumeration, closed under the character step (proved in
`parse_loop_inv`).  Every member is nonempty with `Starting` at the bottom. -/
def wf_stack (s : List ParserState) : Prop :=
  s = [.Starting] ∨
  s = [.Name, .Starting] ∨
  s = [.Comment, .Starting] ∨
  s = [.StartBlock, .Starting] ∨
  s = [.Comment, .StartBlock, .Starting] ∨
  s = [.Seeking, .StartBlock, .Starting] ∨
  s = [.InDirective, .StartBlock, .Starting] ∨
  s = [.Comment, .Seeking, .StartBlock, .Starting] ∨
  s = [.InDirective, .Seeking, .StartBlock, .Starting] ∨
  s = [.Comment, .InDirective, .StartBlock, .Starting] ∨
  s = [.Comment, .InDirective, .Seeking, .StartBlock, .Starting] ∨
  s = [.EndBlock, .Starting]

instance (s : List ParserState) : Decidable (wf_stack s) := by
  unfold wf_stack
  infer_instance

/-- Directive raw texts free of the two delimiter characters `;` and `#`. -/
def clean_dirs (ds : List ConfigItem) : Prop :=
  ∀ item ∈ ds, ';' ∉ item.raw ∧ '#' ∉ item.raw

/-- The character loop of `JlsCommand::tokenize_jls_line`, with the state
`(result, in_quotes, current)`; the branches mirror the source in order
(note the source tests `char != ' '` first, so the two quote branches are
only reachable when the character is a space). -/
def tokenize_loop : List (List Char) → Bool → List Char → List Char →
    List (List Char)
  | result, _, current, [] =>
      if current ≠ [] then result ++ [current] else result
  | result, in_quotes, current, c :: rest =>
      if c ≠ ' ' then
        tokenize_loop result in_quotes (current ++ [c]) rest
      else if c = '"' && !in_quotes then
        tokenize_loop result true (current ++ [c]) rest
      else if in_quotes then
        tokenize_loop result (if c = '"' then false else in_quotes)
          (current ++ [c]) rest
      else if current ≠ [] then
        tokenize_loop (result ++ [current]) in_quotes [] rest
      else
        tokenize_loop result in_quotes [] rest

/-- Mirror of `JlsCommand::tokenize_jls_line` (the source always returns `Ok`). -/
def tokenize_jls_line (raw : List Char) : List (List Char) :=
  tokenize_loop [] false [] raw

/-- The `Parameters` enumeration from the `jls` module, as used by `command.rs`:
boolean, 32-bit-integer and string parameters. -/
inductive Parameters where
  | BooleanParameter : List Char → Bool → Parameters
  | NumberParameter : List Char → Int → Parameters
  | StringParameter : List Char → List Char → Parameters
deriving DecidableEq, Repr

/-- Regex `\w` (ASCII fragment): alphanumeric or underscore. -/
def is_word_char (c : Char) : Bool :=
  is_ascii_alphanumeric c || c = '_'

/-- The name class `[\w+\.]` of `CONFIG_DIRECTIVE_RE`. -/
def is_name_char (c : Char) : Bool :=
  is_word_char c || c = '+' || c = '.'

/-- Regex `\d` (ASCII fragment): a decimal digit. -/
def is_regex_digit (c : Char) : Bool :=
  '0' ≤ c && c ≤ '9'

/-- The value captured by the alternation of `CONFIG_DIRECTIVE_RE`:
`(?<disabled>disable) | (?<numeric>\d+) | "(?<quoted>.*)" | (?<unquoted>\w*)`. -/
inductive ValueCapture where
  | disabled
  | numeric : List Char → ValueCapture
  | quoted : List Char → ValueCapture
  | unquoted : List Char → ValueCapture
deriving DecidableEq, Repr

/-- The quoted alternative `"(?<quoted>.*)"` against the anchored tail: the
value must start and end with `"` and the span between them (captured
greedily up to the last quote) may not contain a newline, which `.` never
matches. -/
def match_quoted (v : List Char) : Option (List Char) :=
  match v with
  | '"' :: rest =>
      if rest ≠ [] ∧ rest.getLast? = some '"' ∧ rest.dropLast.all (· ≠ '\n') then
        some rest.dropLast
      else none
  | _ => none

/-- The value alternation of `CONFIG_DIRECTIVE_RE` against the anchored
tail `v`, with the regex crate's leftmost-first alternative priority:
the literal `disable`, else a nonempty all-digit run, else a quoted span,
else an all-word-character (possibly empty) run. -/
def match_value (v : List Char) : Option ValueCapture :=
  if v = "disable".toList then some .disabled
  else if v ≠ [] ∧ v.all is_regex_digit then some (.numeric v)
  else
    match match_quoted v with
    | some mid => some (.quoted mid)
    | none => if v.all is_word_char then some (.unquoted v) else none

/-- The named captures of a full match of `CONFIG_DIRECTIVE_RE`. -/
structure DirectiveCaptures where
  name : List Char
  value : Option ValueCapture
deriving DecidableEq, Repr

/-- Mirror of `Regex::captures` for the anchored `CONFIG_DIRECTIVE_RE`
`^(?<name>[\w+\.]+)(?:=(?:disable|\d+|"(.*)"|\w*))?$`.  Because `=` is not in
the name class, the greedy `(?<name>[\w+\.]+)` always captures the maximal
name-class prefix (shortening it would leave a name-class character where
`=` or the end of input is required); the rest of the input must be empty or
`=` followed by a value alternative covering it completely. -/
def regex_captures (s : List Char) : Option DirectiveCaptures :=
  let p := s.takeWhile is_name_char
  let rest := s.dropWhile is_name_char
  if p = [] then none
  else
    match rest with
    | [] => some ⟨p, none⟩
    | '=' :: v =>
        match match_value v with
        | some vc => some ⟨p, some vc⟩
        | none => none
    | _ => none

/-- Mirror of `str::parse::<i32>` on the digits captured by `(?<numeric>\d+)`:
the decimal value when it fits in an `i32`, otherwise an error (`none`). -/
def parse_i32 (ds : List Char) : Option Int :=
  let n := ds.foldl (fun acc c => acc * 10 + (c.toNat - '0'.toNat)) 0
  if n ≤ 2147483647 then some (Int.ofNat n) else none

/-- The sentinel parameter `("NO NAME", "NO VALUE")`. -/
def sentinel_parameter : Parameters :=
  .StringParameter "NO NAME".toList "NO VALUE".toList

/-- Mirror of `JlsCommand::directive_to_paramter` (source spelling): classify one
directive string via the regex captures; `none` models the
`Err("directive does not match regex")` path. -/
def directive_to_paramter (directive : List Char) : Option Parameters :=
  match regex_captures directive with
  | none => none
  | some caps =>
      if caps.name ≠ [] then
        match caps.value with
        | some .disabled => some (.BooleanParameter caps.name false)
        | some (.numeric ds) =>
            match parse_i32 ds with
            | some n => some (.NumberParameter caps.name n)
            | none => some (.NumberParameter caps.name (-1))
        | some (.quoted q) => some (.StringParameter caps.name q)
        | some (.unquoted u) => some (.StringParameter caps.name u)
        | none => some (.BooleanParameter caps.name true)
      else
        some sentinel_parameter

/-- Mirror of `JlsCommand::convert_to_parameter_list`: map the classifier over the
token list, substituting the sentinel parameter on a classification error
(the source always returns `Ok` of this list). -/
def convert_to_parameter_list (raw : List (List Char)) : List Parameters :=
  raw.map fun val =>
    match directive_to_paramter val with
    | some p => p
    | none => sentinel_parameter

theorem wf_stack_ne_nil {s : List ParserState} (h : wf_stack s) : s ≠ [] := by
  rcases h with h | h | h | h | h | h | h | h | h | h | h | h <;> subst h <;> simp

theorem clean_dirs_nil : clean_dirs [] := by
  intro item h
  cases h

theorem semi_never_stays_indirective :
    ∀ s : ParserState, next_state s ';' ≠ ParserState.InDirective := by
  intro s
  cases s <;> decide

theorem hash_never_stays_indirective :
    ∀ s : ParserState, next_state s '#' ≠ ParserState.InDirective := by
  intro s
  cases s <;> decide

/-- A character whose successor state is `InDirective` is neither the
directive terminator `;` nor the comment opener `#`. -/
theorem indirective_char_ne {s : ParserState} {c : Char}
    (hn : next_state s c = ParserState.InDirective) : c ≠ ';' ∧ c ≠ '#' := by
  constructor <;> rintro rfl
  · exact semi_never_stays_indirective s hn
  · exact hash_never_stays_indirective s hn

/-- State `InDirective` is only ever the successor of `StartBlock`, `Seeking`
or `InDirective` itself. -/
theorem next_state_to_indirective {s : ParserState} {c : Char}
    (h : next_state s c = ParserState.InDirective) :
    s = ParserState.StartBlock ∨ s = ParserState.Seeking ∨
      s = ParserState.InDirective := by
  cases s
  case StartBlock => exact Or.inl rfl
  case Seeking => exact Or.inr (Or.inl rfl)
  case InDirective => exact Or.inr (Or.inr rfl)
  all_goals exfalso
  all_goals simp only [next_state] at h
  all_goals repeat' split at h
  all_goals simp_all

theorem clean_dirs_append {ds : List ConfigItem} {c : Char}
    (h : clean_dirs ds) (h1 : c ≠ ';') (h2 : c ≠ '#') :
    clean_dirs (ds ++ [⟨[], [c]⟩]) := by
  intro item hm
  rcases List.mem_append.mp hm with hm | hm
  · exact h item hm
  · rcases List.mem_singleton.mp hm with rfl
    refine ⟨?_, ?_⟩ <;> intro hmem <;> rcases List.mem_singleton.mp hmem with he
    · exact h1 he.symm
    · exact h2 he.symm

theorem clean_push_raw_last {c : Char} (h1 : c ≠ ';') (h2 : c ≠ '#') :
    ∀ ds, clean_dirs ds → clean_dirs (push_raw_last ds c) := by
  intro ds
  induction ds with
  | nil => intro h; simpa [push_raw_last] using h
  | cons d rest ih =>
    intro h
    cases rest with
    | nil =>
      intro item hm
      rcases List.mem_singleton.mp (by simpa [push_raw_last] using hm) with rfl
      have hd := h d (by simp)
      refine ⟨?_, ?_⟩ <;> intro hmem <;>
        rcases List.mem_append.mp hmem with hmem | hmem
      · exact hd.1 hmem
      · exact h1 (List.mem_singleton.mp hmem).symm
      · exact hd.2 hmem
      · exact h2 (List.mem_singleton.mp hmem).symm
    | cons e es =>
      intro item hm
      have hm2 : item = d ∨ item ∈ push_raw_last (e :: es) c := by
        simpa [push_raw_last] using hm
      rcases hm2 with rfl | hm2
      · exact h _ (by simp)
      · exact ih (fun i hi => h i (by simp [hi])) item hm2

/-- Main invariant of the block tokenizer: from a reachable stack and a
delimiter-free directive list, the character loop never panics, its stack
stays in the reachable enumeration (so it is never empty), and every
directive raw text stays free of `;` and `#`. -/
theorem parse_loop_inv (content : List Char) :
    ∀ stack cfg, wf_stack stack → clean_dirs cfg.directives →
      ∃ s2 c2, parse_loop stack cfg content = some (s2, c2) ∧
        wf_stack s2 ∧ clean_dirs c2.directives := by
  induction content with
  | nil =>
    intro stack cfg hw hc
    exact ⟨stack, cfg, rfl, hw, hc⟩
  | cons val rest ih =>
    intro stack cfg hwf hc
    rcases hwf with h | h | h | h | h | h | h | h | h | h | h | h <;> subst h
    · cases hn : next_state .Starting val <;>
        simp [parse_loop, hn, handle_transition, start_name_transition,
          start_block_transition, start_comment_transition, end_name_transition,
          seeking_transition, in_directive_transition, end_block_transition,
          end_comment_transition, drop_through_start_block] <;>
        first
          | exact ih _ _ (by decide) hc
          | exact ih _ _ (by decide)
              (clean_dirs_append hc (indirective_char_ne hn).1 (indirective_char_ne hn).2)
          | exact ih _ _ (by decide)
              (clean_push_raw_last (indirective_char_ne hn).1 (indirective_char_ne hn).2 _ hc)
    · cases hn : next_state .Name val <;>
        simp [parse_loop, hn, handle_transition, start_name_transition,
          start_block_transition, start_comment_transition, end_name_transition,
          seeking_transition, in_directive_transition, end_block_transition,
          end_comment_transition, drop_through_start_block] <;>
        first
          | exact ih _ _ (by decide) hc
          | exact ih _ _ (by decide)
              (clean_dirs_append hc (indirective_char_ne hn).1 (indirective_char_ne hn).2)
          | exact ih _ _ (by decide)
              (clean_push_raw_last (indirective_char_ne hn).1 (indirective_char_ne hn).2 _ hc)
    · cases hn : next_state .Comment val <;>
        simp [parse_loop, hn, handle_transition, start_name_transition,
          start_block_transition, start_comment_transition, end_name_transition,
          seeking_transition, in_directive_transition, end_block_transition,
          end_comment_transition, drop_through_start_block] <;>
        first
          | exact ih _ _ (by decide) hc
          | exact ih _ _ (by decide)
              (clean_dirs_append hc (indirective_char_ne hn).1 (indirective_char_ne hn).2)
          | exact ih _ _ (by decide)
              (clean_push_raw_last (indirective_char_ne hn).1 (indirective_char_ne hn).2 _ hc)
    · cases hn : next_state .StartBlock val <;>
        simp [parse_loop, hn, handle_transition, start_name_transition,
          start_block_transition, start_comment_transition, end_name_transition,
          seeking_transition, in_directive_transition, end_block_transition,
          end_comment_transition, drop_through_start_block] <;>
        first
          | exact ih _ _ (by decide) hc
          | exact ih _ _ (by decide)
              (clean_dirs_append hc (indirective_char_ne hn).1 (indirective_char_ne hn).2)
          | exact ih _ _ (by decide)
              (clean_push_raw_last (indirective_char_ne hn).1 (indirective_char_ne hn).2 _ hc)
    · cases hn : next_state .Comment val <;>
        simp [parse_loop, hn, handle_transition, start_name_transition,
          start_block_transition, start_comment_transition, end_name_transition,
          seeking_transition, in_directive_transition, end_block_transition,
          end_comment_transition, drop_through_start_block] <;>
        first
          | exact ih _ _ (by decide) hc
          | exact ih _ _ (by decide)
              (clean_dirs_append hc (indirective_char_ne hn).1 (indirective_char_ne hn).2)
          | exact ih _ _ (by decide)
              (clean_push_raw_last (indirective_char_ne hn).1 (indirective_char_ne hn).2 _ hc)
    · cases hn : next_state .Seeking val <;>
        simp [parse_loop, hn, handle_transition, start_name_transition,
          start_block_transition, start_comment_transition, end_name_transition,
          seeking_transition, in_directive_transition, end_block_transition,
          end_comment_transition, drop_through_start_block] <;>
        first
          | exact ih _ _ (by decide) hc
          | exact ih _ _ (by decide)
              (clean_dirs_append hc (indirective_char_ne hn).1 (indirective_char_ne hn).2)
          | exact ih _ _ (by decide)
              (clean_push_raw_last (indirective_char_ne hn).1 (indirective_char_ne hn).2 _ hc)
    · cases hn : next_state .InDirective val <;>
        simp [parse_loop, hn, handle_transition, start_name_transition,
          start_block_transition, start_comment_transition, end_name_transition,
          seeking_transition, in_directive_transition, end_block_transition,
          end_comment_transition, drop_through_start_block] <;>
        first
          | exact ih _ _ (by decide) hc
          | exact ih _ _ (by decide)
              (clean_dirs_append hc (indirective_char_ne hn).1 (indirective_char_ne hn).2)
          | exact ih _ _ (by decide)
              (clean_push_raw_last (indirective_char_ne hn).1 (indirective_char_ne hn).2 _ hc)
    · cases hn : next_state .Comment val <;>
        simp [parse_loop, hn, handle_transition, start_name_transition,
          start_block_transition, start_comment_transition, end_name_transition,
          seeking_transition, in_directive_transition, end_block_transition,
          end_comment_transition, drop_through_start_block] <;>
        first
          | exact ih _ _ (by decide) hc
          | exact ih _ _ (by decide)
              (clean_dirs_append hc (indirective_char_ne hn).1 (indirective_char_ne hn).2)
          | exact ih _ _ (by decide)
              (clean_push_raw_last (indirective_char_ne hn).1 (indirective_char_ne hn).2 _ hc)
    · cases hn : next_state .InDirective val <;>
        simp [parse_loop, hn, handle_transition, start_name_transition,
          start_block_transition, start_comment_transition, end_name_transition,
          seeking_transition, in_directive_transition, end_block_transition,
          end_comment_transition, drop_through_start_block] <;>
        first
          | exact ih _ _ (by decide) hc
          | exact ih _ _ (by decide)
              (clean_dirs_append hc (indirective_char_ne hn).1 (indirective_char_ne hn).2)
          | exact ih _ _ (by decide)
              (clean_push_raw_last (indirective_char_ne hn).1 (indirective_char_ne hn).2 _ hc)
    · cases hn : next_state .Comment val <;>
        simp [parse_loop, hn, handle_transition, start_name_transition,
          start_block_transition, start_comment_transition, end_name_transition,
          seeking_transition, in_directive_transition, end_block_transition,
          end_comment_transition, drop_through_start_block] <;>
        first
          | exact ih _ _ (by decide) hc
          | exact ih _ _ (by decide)
              (clean_dirs_append hc (indirective_char_ne hn).1 (indirective_char_ne hn).2)
          | exact ih _ _ (by decide)
              (clean_push_raw_last (indirective_char_ne hn).1 (indirective_char_ne hn).2 _ hc)
    · cases hn : next_state .Comment val <;>
        simp [parse_loop, hn, handle_transition, start_name_transition,
          start_block_transition, start_comment_transition, end_name_transition,
          seeking_transition, in_directive_transition, end_block_transition,
          end_comment_transition, drop_through_start_block] <;>
        first
          | exact ih _ _ (by decide) hc
          | exact ih _ _ (by decide)
              (clean_dirs_append hc (indirective_char_ne hn).1 (indirective_char_ne hn).2)
          | exact ih _ _ (by decide)
              (clean_push_raw_last (indirective_char_ne hn).1 (indirective_char_ne hn).2 _ hc)
    · cases hn : next_state .EndBlock val <;>
        simp [parse_loop, hn, handle_transition, start_name_transition,
          start_block_transition, start_comment_transition, end_name_transition,
          seeking_transition, in_directive_transition, end_block_transition,
          end_comment_transition, drop_through_start_block] <;>
        first
          | exact ih _ _ (by decide) hc
          | exact ih _ _ (by decide)
              (clean_dirs_append hc (indirective_char_ne hn).1 (indirective_char_ne hn).2)
          | exact ih _ _ (by decide)
              (clean_push_raw_last (indirective_char_ne hn).1 (indirective_char_ne hn).2 _ hc)

/-- Replication of the source unit test `test_basic_parsing` of
`config_parser.rs` (whitespace condensed). -/
theorem parse_content_basic_test :
    parse_content ("fordo \x7b\n  # foo the bar\n  bobo;\n  coco=\"dodo\";\n\x7d".toList)
      = some ⟨"fordo".toList,
          [⟨[], "bobo".toList⟩, ⟨[], "coco=\"dodo\"".toList⟩]⟩ := by
  decide

/-- Replication of the source unit tests for `directive_to_paramter` in
`command.rs` (boolean, numeric, quoted-string and raw-string cases). -/
theorem directive_to_paramter_source_tests :
    directive_to_paramter ("nodying".toList)
        = some (Parameters.BooleanParameter "nodying".toList true) ∧
    directive_to_paramter ("ip4=disable".toList)
        = some (Parameters.BooleanParameter "ip4".toList false) ∧
    directive_to_paramter ("devfs.ruleset=5".toList)
        = some (Parameters.NumberParameter "devfs.ruleset".toList 5) ∧
    directive_to_paramter ("env=\"\"".toList)
        = some (Parameters.StringParameter "env".toList []) ∧
    directive_to_paramter ("env=\"FOO=bar\"".toList)
        = some (Parameters.StringParameter "env".toList "FOO=bar".toList) ∧
    directive_to_paramter ("host=new".toList)
        = some (Parameters.StringParameter "host".toList "new".toList) ∧
    directive_to_paramter ("nothing=".toList)
        = some (Parameters.StringParameter "nothing".toList []) := by
  refine ⟨?_, ?_, ?_, ?_, ?_, ?_, ?_⟩ <;> decide

/-- C1: the spec says a character that drives the automaton to `Invalid`
halts all further transitions (`Invalid` as a permanent sink) and the parse
returns only what was accumulated before it.  In the code no transition
handler ever pushes `Invalid`, so the offending character is dropped and
parsing continues in the prior state: on `"a%b {c;}"` the `%` maps
`Name` to `Invalid`, yet the name grows to `"ab"` and the directive `"c"`
is still parsed. -/
theorem c1_invalid_char_is_skipped :
    next_state ParserState.Name '%' = ParserState.Invalid ∧
      parse_content ("a%b \x7bc;\x7d".toList)
        = some ⟨['a', 'b'], [⟨[], ['c']⟩]⟩ := by
  constructor <;> decide

/-- C2: the spec says a quoted span keeps its spaces inside one token.  In
`tokenize_jls_line` the first branch `char != ' '` captures every quote, so
`in_quotes` never becomes true and the line is split at every space: the
line `env="a b"` becomes the two tokens `env="a` and `b"` instead of one. -/
theorem c2_quoted_space_splits_token :
    tokenize_jls_line ("env=\"a b\"".toList)
        = ["env=\"a".toList, "b\"".toList] ∧
      tokenize_jls_line ("env=\"a b\"".toList) ≠ ["env=\"a b\"".toList] := by
  constructor <;> decide

/-- C5 (counterexample): classifying `count=12x` does not yield
`Number("count", -1)`; the value `12x` fails the `\d+` alternative but
matches the `\w*` alternative, so the result is `String("count", "12x")`. -/
theorem c5_trailing_garbage_counterexample :
    directive_to_paramter ("count=12x".toList)
        = some (Parameters.StringParameter "count".toList "12x".toList) ∧
      directive_to_paramter ("count=12x".toList)
        ≠ some (Parameters.NumberParameter "count".toList (-1)) := by
  constructor <;> decide

/-- C5 (amended): classification never aborts; a digit-plus-word value such
as `count=12x` matches the bare-word branch and yields
`String("count", "12x")`, while `Number(name, -1)` arises when the value is
an all-digit run that overflows `i32`, e.g. `count=3000000000`. -/
theorem c5_overflow_yields_minus_one :
    directive_to_paramter ("count=12x".toList)
        = some (Parameters.StringParameter "count".toList "12x".toList) ∧
      directive_to_paramter ("count=3000000000".toList)
        = some (Parameters.NumberParameter "count".toList (-1)) := by
  constructor <;> decide

/-- C6: for every input, `parse_content` returns a configuration and never
panics: the `end_name_transition` assertion is unreachable because the
transition dispatch always receives the top of the stack as the from-state,
and the state stack is nonempty after every processed character (every
prefix of the input is itself an input of this theorem). -/
theorem c6_parse_never_fails (content : List Char) :
    ∃ s2 c2,
      parse_loop [ParserState.Starting] ⟨[], []⟩ content = some (s2, c2) ∧
        s2 ≠ [] ∧ parse_content content = some c2 := by
  obtain ⟨s2, c2, heq, hwf, -⟩ :=
    parse_loop_inv content [ParserState.Starting] ⟨[], []⟩ (by decide) clean_dirs_nil
  exact ⟨s2, c2, heq, wf_stack_ne_nil hwf, by simp [parse_content, heq]⟩

/-- C7: a directive interrupted by a comment resumes seamlessly: parsing
`x {foo#comment` + newline + `bar;}` accumulates exactly one directive with
raw text `foobar`, the comment text excluded. -/
theorem c7_directive_resumes_across_comment :
    parse_content ("x \x7bfoo#comment\nbar;\x7d".toList)
      = some ⟨['x'], [⟨[], "foobar".toList⟩]⟩ := by
  decide

/-- C8: classification produces exactly one parameter per input token
(the output list always has the input's length), and a directive string the
grammar regex does not match at all yields exactly the sentinel
`("NO NAME", "NO VALUE")` parameter; no error escapes. -/
theorem c8_classification_total (raw : List (List Char)) (s : List Char)
    (hnomatch : regex_captures s = none) :
    (convert_to_parameter_list raw).length = raw.length ∧
      convert_to_parameter_list [s] = [sentinel_parameter] := by
  constructor
  · simp [convert_to_parameter_list]
  · simp [convert_to_parameter_list, directive_to_paramter, hnomatch]

/-- Witness for C8 at the unmatchable token `@`. -/
theorem c8_witness :
    (convert_to_parameter_list [['@'], "a=1".toList]).length
        = [['@'], "a=1".toList].length ∧
      convert_to_parameter_list [['@']] = [sentinel_parameter] :=
  c8_classification_total [['@'], "a=1".toList] ['@'] (by decide)

/-- C9: tokenizing the sample `jls` line gives exactly the six expected
tokens, and classifying them in order gives exactly the expected
number/boolean/string parameters. -/
theorem c9_jls_sample_line :
    tokenize_jls_line
        ("devfs_ruleset=5 nodying enforce_statfs=2 env=\"\" host=new ip4=disable".toList)
      = ["devfs_ruleset=5".toList, "nodying".toList, "enforce_statfs=2".toList,
         "env=\"\"".toList, "host=new".toList, "ip4=disable".toList] ∧
    convert_to_parameter_list
        ["devfs_ruleset=5".toList, "nodying".toList, "enforce_statfs=2".toList,
         "env=\"\"".toList, "host=new".toList, "ip4=disable".toList]
      = [Parameters.NumberParameter "devfs_ruleset".toList 5,
         Parameters.BooleanParameter "nodying".toList true,
         Parameters.NumberParameter "enforce_statfs".toList 2,
         Parameters.StringParameter "env".toList [],
         Parameters.StringParameter "host".toList "new".toList,
         Parameters.BooleanParameter "ip4".toList false] := by
  constructor <;> decide

/-- C3 (counterexample): input that ends while still inside `InDirective`
does leave an entry for the unfinished directive: parsing `a {b` ends with
`InDirective` on top of the stack, yet the directive list already holds the
partial item `b`, because `in_directive_transition` pushes the item on
entering the state, not on leaving it. -/
theorem c3_unfinished_directive_counterexample :
    parse_loop [ParserState.Starting] ⟨[], []⟩ ("a \x7bb".toList)
      = some ([ParserState.InDirective, ParserState.StartBlock, ParserState.Starting],
          ⟨['a'], [⟨[], ['b']⟩]⟩) := by
  decide

/-- C3 (amended): over one character step, a new directive (seeded with the
character) is appended exactly when the automaton enters `InDirective`;
while staying in `InDirective` the character extends the last entry's raw
text; in every other step the directive list is unchanged — so an
unfinished directive is already present in the list. -/
theorem c3_append_on_entering_indirective
    (stack : List ParserState) (cfg : Configuration) (c : Char)
    (t : ParserState) (s2 : List ParserState) (c2 : Configuration)
    (htop : stack.head? = some t) (hne : t ≠ ParserState.Invalid)
    (hstep : parse_loop stack cfg [c] = some (s2, c2)) :
    (t ≠ ParserState.InDirective → next_state t c = ParserState.InDirective →
        c2.directives = cfg.directives ++ [⟨[], [c]⟩]) ∧
    (t = ParserState.InDirective → next_state t c = ParserState.InDirective →
        c2.directives = push_raw_last cfg.directives c) ∧
    (next_state t c ≠ ParserState.InDirective → c2.directives = cfg.directives) := by
  rcases stack with _ | ⟨t0, rest⟩
  · simp at htop
  · have ht : t0 = t := by simpa using htop
    subst ht
    cases t0 with
    | Invalid => exact absurd rfl hne
    | Starting =>
      cases hn : next_state .Starting c <;>
        simp [parse_loop, hn, handle_transition, start_name_transition,
          start_block_transition, start_comment_transition, end_name_transition,
          seeking_transition, in_directive_transition, end_block_transition,
          end_comment_transition] at hstep <;>
        rcases hstep with ⟨rfl, rfl⟩ <;> simp [hn] <;>
        exact absurd (next_state_to_indirective hn) (by decide)
    | Name =>
      cases hn : next_state .Name c <;>
        simp [parse_loop, hn, handle_transition, start_name_transition,
          start_block_transition, start_comment_transition, end_name_transition,
          seeking_transition, in_directive_transition, end_block_transition,
          end_comment_transition] at hstep <;>
        rcases hstep with ⟨rfl, rfl⟩ <;> simp [hn] <;>
        exact absurd (next_state_to_indirective hn) (by decide)
    | StartBlock =>
      cases hn : next_state .StartBlock c <;>
        simp [parse_loop, hn, handle_transition, start_name_transition,
          start_block_transition, start_comment_transition, end_name_transition,
          seeking_transition, in_directive_transition, end_block_transition,
          end_comment_transition] at hstep <;>
        rcases hstep with ⟨rfl, rfl⟩ <;> simp [hn] <;>
        exact absurd (next_state_to_indirective hn) (by decide)
    | EndBlock =>
      cases hn : next_state .EndBlock c <;>
        simp [parse_loop, hn, handle_transition, start_name_transition,
          start_block_transition, start_comment_transition, end_name_transition,
          seeking_transition, in_directive_transition, end_block_transition,
          end_comment_transition] at hstep <;>
        rcases hstep with ⟨rfl, rfl⟩ <;> simp [hn] <;>
        exact absurd (next_state_to_indirective hn) (by decide)
    | Seeking =>
      cases hn : next_state .Seeking c <;>
        simp [parse_loop, hn, handle_transition, start_name_transition,
          start_block_transition, start_comment_transition, end_name_transition,
          seeking_transition, in_directive_transition, end_block_transition,
          end_comment_transition] at hstep <;>
        rcases hstep with ⟨rfl, rfl⟩ <;> simp [hn] <;>
        exact absurd (next_state_to_indirective hn) (by decide)
    | Comment =>
      cases hn : next_state .Comment c <;>
        simp [parse_loop, hn, handle_transition, start_name_transition,
          start_block_transition, start_comment_transition, end_name_transition,
          seeking_transition, in_directive_transition, end_block_transition,
          end_comment_transition] at hstep <;>
        rcases hstep with ⟨rfl, rfl⟩ <;> simp [hn] <;>
        exact absurd (next_state_to_indirective hn) (by decide)
    | InDirective =>
      cases hn : next_state .InDirective c <;>
        simp [parse_loop, hn, handle_transition, start_name_transition,
          start_block_transition, start_comment_transition, end_name_transition,
          seeking_transition, in_directive_transition, end_block_transition,
          end_comment_transition] at hstep <;>
        rcases hstep with ⟨rfl, rfl⟩ <;> simp [hn] <;>
        exact absurd (next_state_to_indirective hn) (by decide)

/-- Witness for C3 (amended): entering `InDirective` from `Seeking` on `z`
appends the seeded directive. -/
theorem c3_witness :
    (⟨[], [⟨[], ['z']⟩]⟩ : Configuration).directives = [] ++ [⟨[], ['z']⟩] :=
  (c3_append_on_entering_indirective
    [ParserState.Seeking, ParserState.StartBlock, ParserState.Starting]
    ⟨[], []⟩ 'z' ParserState.Seeking
    [ParserState.InDirective, ParserState.Seeking, ParserState.StartBlock,
      ParserState.Starting]
    ⟨[], [⟨[], ['z']⟩]⟩ (by decide) (by decide) (by decide)).1
    (by decide) (by decide)

/-- C4 (counterexample): a name interrupted by a comment does not resume:
in `ab#x` + newline + `cd {`, the comment pops the `Name` state, and the
later characters start a fresh name, so the parsed name is `cd`, not the
claimed `abcd`. -/
theorem c4_name_not_resumed_counterexample :
    parse_content ("ab#x\ncd \x7b".toList) = some ⟨['c', 'd'], []⟩ ∧
      (['c', 'd'] : List Char) ≠ ['a', 'b', 'c', 'd'] := by
  constructor <;> decide

/-- C4 (amended): a comment may interrupt any state and the configuration
(name and directives accumulated so far) is unchanged by the step that
enters `Comment`; directive accumulation resumes seamlessly after the
comment; but an interrupted name does not resume — the `Name` state is
popped when the comment starts and a later alphanumeric character begins a
fresh name that replaces the accumulated one. -/
theorem c4_comment_interruption
    (stack : List ParserState) (cfg : Configuration) (c : Char)
    (t : ParserState) (s2 : List ParserState) (c2 : Configuration) :
    (stack.head? = some t → t ≠ ParserState.Invalid →
        next_state t c = ParserState.Comment →
        parse_loop stack cfg [c] = some (s2, c2) → c2 = cfg) ∧
      parse_content ("q \x7bfo#c\nob;\x7d".toList)
        = some ⟨['q'], [⟨[], "foob".toList⟩]⟩ ∧
      parse_content ("ab#x\ncd \x7b".toList) = some ⟨['c', 'd'], []⟩ := by
  refine ⟨?_, by decide, by decide⟩
  intro htop hne hcm hstep
  rcases stack with _ | ⟨t0, rest⟩
  · simp at htop
  · have ht : t0 = t := by simpa using htop
    subst ht
    cases t0 <;>
      first
        | exact absurd rfl hne
        | (simp [parse_loop, hcm, handle_transition, start_name_transition,
            start_block_transition, start_comment_transition, end_name_transition,
            seeking_transition, in_directive_transition, end_block_transition,
            end_comment_transition] at hstep
           exact hstep.2.symm)

/-- Witness for C4 (amended): interrupting `InDirective` with `#` leaves
the configuration untouched. -/
theorem c4_witness :
    (⟨['x'], [⟨[], ['f']⟩]⟩ : Configuration) = ⟨['x'], [⟨[], ['f']⟩]⟩ :=
  (c4_comment_interruption
    [ParserState.InDirective, ParserState.StartBlock, ParserState.Starting]
    ⟨['x'], [⟨[], ['f']⟩]⟩ '#' ParserState.InDirective
    [ParserState.Comment, ParserState.InDirective, ParserState.StartBlock,
      ParserState.Starting]
    ⟨['x'], [⟨[], ['f']⟩]⟩).1 (by decide) (by decide) (by decide) (by decide)

/-- C10: every directive the block tokenizer ever stores is free of the
transition-triggering characters `;` and `#`, while spaces, newlines and
both braces can occur inside a directive's raw text (shown on a concrete
parse whose single directive raw text is `a b` + newline + `c{d}e`). -/
theorem c10_directives_delimiter_free :
    (∀ content s2 c2,
        parse_loop [ParserState.Starting] ⟨[], []⟩ content = some (s2, c2) →
          ∀ item ∈ c2.directives, ';' ∉ item.raw ∧ '#' ∉ item.raw) ∧
      parse_content ("n \x7ba b\nc\x7bd\x7de;\x7d".toList)
        = some ⟨['n'], [⟨[], "a b\nc\x7bd\x7de".toList⟩]⟩ := by
  constructor
  · intro content s2 c2 heq item hm
    obtain ⟨t2, d2, heq2, -, hclean⟩ :=
      parse_loop_inv content [ParserState.Starting] ⟨[], []⟩ (by decide) clean_dirs_nil
    rw [heq2] at heq
    simp only [Option.some.injEq, Prod.mk.injEq] at heq
    obtain ⟨rfl, rfl⟩ := heq
    exact hclean item hm
  · decide

/-- Witness for C10 on the parse of `x {y;}`. -/
theorem c10_witness :
    ';' ∉ ([ 'y' ] : List Char) ∧ '#' ∉ ([ 'y' ] : List Char) :=
  c10_directives_delimiter_free.1 ("x \x7by;\x7d".toList)
    [ParserState.StartBlock, ParserState.Starting] ⟨['x'], [⟨[], ['y']⟩]⟩
    (by decide) ⟨[], ['y']⟩ (by decide)

end Conman
